import Mathlib

/-!
# Verification of the team weather data engine (`src/main.py`)

Shallow embedding of the normalization and aggregation core of the
repository: `normalize_row_data`, `compare_team_data` and
`compare_cities_analysis`.  Python strings stay `String`; Python floats
are modelled as rationals (`ℚ`), so every arithmetic identity below is
exact where the Python code computes with IEEE doubles.  A raw CSV row
(a `dict` of strings) is an association list with unique keys; the
normalized record (also a `dict`) is an association list from keys to
`Value`s, traversed in insertion order exactly as Python traverses a
`dict`.  A Python function that can raise is embedded as `Except String`.
-/

/-- A value stored in a normalized record: Python `str` or `float`
(modelled as `ℚ`).  `normalize_row_data` only ever stores these two
kinds of values. -/
inductive Value where
  | str (s : String)
  | num (q : ℚ)
deriving DecidableEq

/-- Equality of embedded results is decidable, so concrete runs of the
embedded functions can be checked by `decide`. -/
instance {ε α : Type} [DecidableEq ε] [DecidableEq α] : DecidableEq (Except ε α) := fun a b =>
  match a, b with
  | .error e, .error f =>
    if h : e = f then .isTrue (by rw [h]) else .isFalse (fun c => h (Except.error.inj c))
  | .ok x, .ok y =>
    if h : x = y then .isTrue (by rw [h]) else .isFalse (fun c => h (Except.ok.inj c))
  | .error _, .ok _ => .isFalse (fun c => Except.noConfusion c)
  | .ok _, .error _ => .isFalse (fun c => Except.noConfusion c)

/-- A raw CSV row: ordered mapping from field names to string values,
as produced by `csv.DictReader`.  Keys of an actual Python `dict` are
unique; lookups take the first binding. -/
abbrev RawRecord := List (String × String)

/-- A normalized record: ordered mapping from field names to values,
as built by `normalize_row_data`. -/
abbrev Canon := List (String × Value)

/-- Python truthiness for the values a record can hold:
a string is truthy iff non-empty, a float iff nonzero. -/
def Value.truthy : Value → Bool
  | .str s => !(s == "")
  | .num q => !(q == 0)

/-- The whitespace characters `str.split()` and `float()` treat as
separators (the Python `str.isspace` on ASCII input). -/
def pyIsSpace (c : Char) : Bool :=
  c == ' ' || c == '\t' || c == '\n' || c == '\r' || c == '\x0b' || c == '\x0c'

/-- Fuel-driven worker for `pySplit`; the fuel is an upper bound on the
number of words, each loop step consumes at least one character. -/
def pySplitAux : Nat → List Char → List String
  | 0, _ => []
  | fuel + 1, cs =>
    match cs.dropWhile pyIsSpace with
    | [] => []
    | c :: rest =>
      String.mk ((c :: rest).takeWhile (fun d => !pyIsSpace d)) ::
        pySplitAux fuel ((c :: rest).dropWhile (fun d => !pyIsSpace d))

/-- Python `s.split()` with no argument: split on runs of whitespace,
discarding empty pieces (so an all-whitespace string yields `[]`). -/
def pySplit (s : String) : List String :=
  pySplitAux (s.data.length + 1) s.data

/-- Python `s.capitalize()`: first character uppercased, the rest
lowercased (ASCII model of the Unicode original). -/
def pyCapitalize (s : String) : String :=
  match s.data with
  | [] => ""
  | c :: cs => String.mk (c.toUpper :: cs.map Char.toLower)

/-- Worker for `containsSub`: does `pat` occur as a contiguous block? -/
def containsSubAux (pat : List Char) : List Char → Bool
  | [] => false
  | c :: cs => pat.isPrefixOf (c :: cs) || containsSubAux pat cs

/-- Python `pat in s` on strings (substring test). -/
def containsSub (s pat : String) : Bool :=
  pat.data.isEmpty || containsSubAux pat.data s.data

/-- Fuel-driven worker for `pyReplace`; each step consumes at least one
character, so `s.length` fuel suffices. -/
def pyReplaceAux (pat rep : List Char) : Nat → List Char → List Char
  | 0, cs => cs
  | _ + 1, [] => []
  | fuel + 1, c :: cs =>
    if pat.isPrefixOf (c :: cs) then
      rep ++ pyReplaceAux pat rep fuel (List.drop (pat.length - 1) cs)
    else
      c :: pyReplaceAux pat rep fuel cs

/-- Python `s.replace(pat, rep)`: replace every (left-to-right,
non-overlapping) occurrence.  The code only calls it with non-empty
patterns, so the empty pattern is mapped to the identity. -/
def pyReplace (s pat rep : String) : String :=
  if pat.data.isEmpty then s
  else ⟨pyReplaceAux pat.data rep.data s.data.length s.data⟩

/-- Numeric value of a digit string (most significant first). -/
def digsVal (cs : List Char) : Nat :=
  cs.foldl (fun a c => a * 10 + (c.toNat - 48)) 0

/-- Leading sign of a float literal: `true` means negative. -/
def parseSign : List Char → Bool × List Char
  | '+' :: cs => (false, cs)
  | '-' :: cs => (true, cs)
  | cs => (false, cs)

/-- Mantissa of a float literal: digits with at most one decimal point,
not all absent (`"1."`, `".5"`, `"17"` are fine, `"."` and `""` are not). -/
def parseMantissa (cs : List Char) : Option ℚ :=
  let ip := cs.takeWhile Char.isDigit
  match cs.dropWhile Char.isDigit with
  | [] => if ip.isEmpty then none else some (digsVal ip : ℚ)
  | '.' :: fs =>
    if fs.all Char.isDigit && !(ip.isEmpty && fs.isEmpty) then
      some ((digsVal ip : ℚ) + (digsVal fs : ℚ) / (10 : ℚ) ^ fs.length)
    else none
  | _ => none

/-- Worker for `parseFloat?` on a whitespace-stripped literal. -/
def parseFloatAux (cs : List Char) : Option ℚ :=
  let sc := parseSign cs
  let mant := sc.2.takeWhile (fun c => c.isDigit || c == '.')
  let val? :=
    match sc.2.dropWhile (fun c => c.isDigit || c == '.') with
    | [] => parseMantissa mant
    | e :: es =>
      if e == 'e' || e == 'E' then
        let esc := parseSign es
        if !esc.2.isEmpty && esc.2.all Char.isDigit then
          (parseMantissa mant).map (fun q =>
            if esc.1 then q / (10 : ℚ) ^ digsVal esc.2
            else q * (10 : ℚ) ^ digsVal esc.2)
        else none
      else none
  val?.map (fun q => if sc.1 then -q else q)

/-- Python `float(s)` restricted to finite decimal literals: optional
surrounding whitespace, optional sign, decimal digits with an optional
point and an optional exponent.  Non-finite (`inf`/`nan`) and
underscore-grouped literals lie outside the rational model and are
treated as failures, exactly like any other unparsable string. -/
def parseFloat? (s : String) : Option ℚ :=
  parseFloatAux (((s.data.dropWhile pyIsSpace).reverse.dropWhile pyIsSpace).reverse)

/-! ## Synonym tables of `normalize_row_data` (src/main.py lines 40-99) -/

def timestamp_fields : List String :=
  ["timestamp", "Timestamp", "date", "Date", "time", "Time"]

def city_fields : List String :=
  ["city", "City", "location", "Location", "place", "Place"]

def country_fields : List String :=
  ["country", "Country", "nation", "Nation"]

def temp_fields : List String :=
  ["temperature", "Temperature", "temp", "Temp", "Temperature (F)", "Temperature (C)"]

def desc_fields : List String :=
  ["weather_description", "Description", "description", "weather", "Weather",
   "conditions", "Conditions"]

def humidity_fields : List String :=
  ["humidity", "Humidity", "humid", "Humid"]

def wind_fields : List String :=
  ["wind_speed", "Wind Speed", "wind", "Wind", "windspeed", "WindSpeed"]

/-- Resolution loop `for field in fields: if field in row and row[field]` for
the string-valued canonical fields: the first synonym present with a truthy
(non-empty) value wins. -/
def findStr (fields : List String) (row : RawRecord) : Option (String × String) :=
  match fields with
  | [] => none
  | f :: rest =>
    match List.lookup f row with
    | some v => if v == "" then findStr rest row else some (f, v)
    | none => findStr rest row

/-- The numeric variant: the first synonym whose value is present,
truthy *and* parses as a float wins; a present but unparsable value
falls through to the next synonym (`except ... pass` inside the loop). -/
def findNum (fields : List String) (row : RawRecord) : Option (String × ℚ) :=
  match fields with
  | [] => none
  | f :: rest =>
    match List.lookup f row with
    | some v =>
      if v == "" then findNum rest row
      else
        match parseFloat? v with
        | some q => some (f, q)
        | none => findNum rest row
    | none => findNum rest row

/-- String-valued resolution with the `"Unknown"` default used by the
timestamp/city/country blocks. -/
def resolveStrD (fields : List String) (row : RawRecord) : String :=
  match findStr fields row with
  | some fv => fv.2
  | none => "Unknown"

/-- Member name resolution (src/main.py lines 30-37): the raw
`member_name` value verbatim if the key is present (even when empty),
else derived from a `weather_data_*` file name, else `"Unknown"`. -/
def memberName (row : RawRecord) (fn : String) : String :=
  match List.lookup "member_name" row with
  | some v => v
  | none =>
    if containsSub fn "weather_data_" then
      pyCapitalize (pyReplace (pyReplace fn "weather_data_" "") ".csv" "")
    else "Unknown"

/-- The Fahrenheit heuristic (src/main.py lines 72-74): convert when the
matched synonym mentions `(F)` or the parsed value exceeds 50. -/
def tempConvert (f : String) (q : ℚ) : ℚ :=
  if containsSub f "(F)" || decide (50 < q) then (q - 32) * 5 / 9 else q

/-- The four always-present string fields, in insertion order. -/
def baseFields (row : RawRecord) (fn : String) : Canon :=
  [("member_name", .str (memberName row fn)),
   ("timestamp", .str (resolveStrD timestamp_fields row)),
   ("city", .str (resolveStrD city_fields row)),
   ("country", .str (resolveStrD country_fields row))]

/-- The temperature entry (empty when no synonym parsed). -/
def tempSeg (row : RawRecord) : Canon :=
  match findNum temp_fields row with
  | some fq => [("temperature", .num (tempConvert fq.1 fq.2))]
  | none => []

/-- The description entries (src/main.py lines 80-86).  A matched value
consisting only of whitespace makes `row[field].split()[0]` raise
`IndexError`, which this embedding surfaces as an `Except.error`. -/
def descSeg (row : RawRecord) : Except String Canon :=
  match findStr desc_fields row with
  | none => .ok []
  | some fv =>
    match pySplit fv.2 with
    | [] => .error "IndexError: list index out of range"
    | w :: _ => .ok [("weather_description", .str fv.2),
                     ("weather_main", .str (pyCapitalize w))]

/-- The humidity entry. -/
def humSeg (row : RawRecord) : Canon :=
  match findNum humidity_fields row with
  | some fq => [("humidity", .num fq.2)]
  | none => []

/-- The wind speed entry. -/
def windSeg (row : RawRecord) : Canon :=
  match findNum wind_fields row with
  | some fq => [("wind_speed", .num fq.2)]
  | none => []

/-- Membership test `key in normalized` on an association-list record. -/
def hasKey (l : Canon) (k : String) : Bool :=
  l.any (fun kv => kv.1 == k)

/-- The trailing copy loop (src/main.py lines 109-111): every raw pair
whose value is truthy and whose key is not yet a key of the record
(fixed fields plus previously copied pairs) is appended verbatim. -/
def overflowPass (row : RawRecord) (fixed : Canon) : Canon :=
  row.foldl (fun acc kv =>
    if kv.2 != "" && !hasKey fixed kv.1 && !hasKey acc kv.1 then
      acc ++ [(kv.1, .str kv.2)]
    else acc) []

/-- The record built by the fixed-field blocks, before the copy loop. -/
def fixedFields (row : RawRecord) (fn : String) : Except String Canon :=
  match descSeg row with
  | .error e => .error e
  | .ok d => .ok (baseFields row fn ++ tempSeg row ++ d ++ humSeg row ++ windSeg row)

/-- The function `normalize_row_data(row, filename)` of src/main.py lines 16-113. -/
def normalize_row_data (row : RawRecord) (fn : String) : Except String Canon :=
  match fixedFields row fn with
  | .error e => .error e
  | .ok fixed => .ok (fixed ++ overflowPass row fixed)

/-! ## Aggregation (src/main.py lines 153-334) -/

/-- Conversion `float(value)` on a record value: floats pass through, strings
go through the float parser, anything unparsable raises and is skipped by
the caller. -/
def valToFloat? : Value → Option ℚ
  | .num q => some q
  | .str s => parseFloat? s

/-- The successfully parsed values of one numeric field over a dataset,
in input order (`temperatures` / `humidity_levels` / `wind_speeds`). -/
def numsOf (field : String) (td : List Canon) : List ℚ :=
  td.filterMap (fun d => (List.lookup field d).bind valToFloat?)

/-- Insertion `set.add` modelled as order-preserving deduplicating insert. -/
def addUnique (l : List Value) (v : Value) : List Value :=
  if v ∈ l then l else l ++ [v]

/-- Conversion `list(set(...))` over the gathered values.  The CPython set
iteration order is hash-randomized and unspecified; the model fixes the
first-occurrence order, which is one of the admissible orders. -/
def dedupFirst (l : List Value) : List Value :=
  l.foldl addUnique []

/-- The categorical sets (`members`, `cities`, `countries`): gather the
truthy values of one field over the dataset, deduplicated. -/
def gather (field : String) (td : List Canon) : List Value :=
  td.foldl (fun acc d =>
    match List.lookup field d with
    | some v => if v.truthy then addUnique acc v else acc
    | none => acc) []

/-- The weather condition contributed by one record:
`weather_main` if truthy, else the capitalized first word of a truthy
`weather_description` (raising on a wordless or non-string one). -/
def condOf (d : Canon) : Except String (Option Value) :=
  let fromDesc : Except String (Option Value) :=
    match List.lookup "weather_description" d with
    | some v =>
      if v.truthy then
        match v with
        | .str s =>
          match pySplit s with
          | [] => .error "IndexError: list index out of range"
          | w :: _ => .ok (some (.str (pyCapitalize w)))
        | .num _ => .error "AttributeError"
      else .ok none
    | none => .ok none
  match List.lookup "weather_main" d with
  | some v => if v.truthy then .ok (some v) else fromDesc
  | none => fromDesc

/-- Gather the set of weather conditions over a dataset. -/
def gatherCondsAux (acc : List Value) : List Canon → Except String (List Value)
  | [] => .ok acc
  | d :: ds =>
    match condOf d with
    | .error e => .error e
    | .ok none => gatherCondsAux acc ds
    | .ok (some v) => gatherCondsAux (addUnique acc v) ds

def gatherConds (td : List Canon) : Except String (List Value) :=
  gatherCondsAux [] td

/-- Strict lexicographic comparison on code points, the Python order on
strings (written on the character lists so that it evaluates). -/
def strLtb : List Char → List Char → Bool
  | [], [] => false
  | [], _ :: _ => true
  | _ :: _, [] => false
  | a :: as, b :: bs =>
    if a.val < b.val then true
    else if b.val < a.val then false
    else strLtb as bs

/-- Comparison `a <= b` for the Python sort, on same-kind values only. -/
def vle : Value → Value → Bool
  | .str a, .str b => !(strLtb b.data a.data)
  | .num a, .num b => decide (a ≤ b)
  | _, _ => false

/-- Insertion step of the sort. -/
def insertLe (v : Value) : List Value → List Value
  | [] => [v]
  | w :: ws => if vle v w then v :: w :: ws else w :: insertLe v ws

/-- All elements are strings. -/
def allStr (l : List Value) : Bool :=
  l.all (fun v => match v with | .str _ => true | .num _ => false)

/-- All elements are floats. -/
def allNum (l : List Value) : Bool :=
  l.all (fun v => match v with | .str _ => false | .num _ => true)

/-- Python `sorted(...)`: sorts a homogeneous list; comparing a `str`
with a `float` raises `TypeError`, which a mixed list of two or more
elements always ends up doing. -/
def valueSort (l : List Value) : Except String (List Value) :=
  if l.length ≤ 1 || allStr l || allNum l then .ok (l.foldr insertLe [])
  else .error "TypeError"

/-- Per-field statistics of `compare_team_data` (the
`temperature_stats` / `humidity_stats` / `wind_stats` sub-dicts). -/
structure NumStats where
  count : Nat
  highest : Option ℚ
  lowest : Option ℚ
  average : Option ℚ
deriving DecidableEq

/-- Builtin `max(vals)` for non-empty `vals`. -/
def listMax : List ℚ → Option ℚ
  | [] => none
  | v :: vs => some (vs.foldl max v)

/-- Builtin `min(vals)` for non-empty `vals`. -/
def listMin : List ℚ → Option ℚ
  | [] => none
  | v :: vs => some (vs.foldl min v)

/-- Statistics block of count, highest, lowest and average: every statistic
is None, not 0, on an empty value list. -/
def mkNumStats (vals : List ℚ) : NumStats :=
  { count := vals.length
    highest := listMax vals
    lowest := listMin vals
    average := match vals with
      | [] => none
      | _ => some (vals.sum / (vals.length : ℚ)) }

/-- The comparison dict returned by `compare_team_data`. -/
structure TeamComparison where
  total_members : Nat
  total_cities : Nat
  total_records : Nat
  temperature_stats : NumStats
  humidity_stats : NumStats
  wind_stats : NumStats
  weather_conditions : List Value
  countries : List Value
  cities : List Value
  members : List Value
deriving DecidableEq

/-- Result of `compare_team_data`: the empty dict on an empty dataset and
the full comparison dict otherwise. -/
inductive TeamResult where
  | empty
  | stats (c : TeamComparison)
deriving DecidableEq

/-- The function `compare_team_data(team_data)` of src/main.py lines 153-238.
The `Except` layer carries the exceptions the Python code can raise while
deriving weather conditions or sorting a mixed-type set. -/
def compare_team_data (td : List Canon) : Except String TeamResult :=
  if td = [] then .ok .empty
  else
    match gatherConds td with
    | .error e => .error e
    | .ok conds =>
      match valueSort conds with
      | .error e => .error e
      | .ok wcs =>
        match valueSort (gather "country" td) with
        | .error e => .error e
        | .ok cos =>
          match valueSort (gather "city" td) with
          | .error e => .error e
          | .ok cis =>
            match valueSort (gather "member_name" td) with
            | .error e => .error e
            | .ok mes =>
              .ok (.stats
                { total_members := (gather "member_name" td).length
                  total_cities := (gather "city" td).length
                  total_records := td.length
                  temperature_stats := mkNumStats (numsOf "temperature" td)
                  humidity_stats := mkNumStats (numsOf "humidity" td)
                  wind_stats := mkNumStats (numsOf "wind_speed" td)
                  weather_conditions := wcs
                  countries := cos
                  cities := cis
                  members := mes })

/-- Per-field statistics of the per-city analysis
(the `temperature` / `humidity` / `wind` sub-dicts). -/
structure CStats where
  count : Nat
  avg : Option ℚ
  mn : Option ℚ
  mx : Option ℚ
deriving DecidableEq

/-- Dict of count, avg, min and max for one numeric field of one city. -/
def mkCStats (vals : List ℚ) : CStats :=
  { count := vals.length
    avg := match vals with
      | [] => none
      | _ => some (vals.sum / (vals.length : ℚ))
    mn := listMin vals
    mx := listMax vals }

/-- Analysis dict of one city. -/
structure CityAnalysis where
  records : Nat
  temperature : CStats
  humidity : CStats
  wind : CStats
  weather_conditions : List Value
  members : List Value
deriving DecidableEq

/-- The successful result dict of `compare_cities_analysis`. -/
structure CitiesOk where
  cities_analyzed : Nat
  total_records : Nat
  city_data : List (Value × CityAnalysis)
  comparison_ready : Bool
deriving DecidableEq

/-- The three return shapes of `compare_cities_analysis`: `{}` for an
empty dataset, the error dict when the city filter matched nothing,
and the analysis dict otherwise. -/
inductive CitiesResult where
  | empty
  | error (msg : String)
  | analysis (a : CitiesOk)
deriving DecidableEq

/-- Test of a truthy city value lying in the allow-list: the Python `in`
compares with `==`, and a float never equals a string. -/
def cityMatch (v : Value) (cs : List String) : Bool :=
  match v with
  | .str s => cs.contains s
  | .num _ => false

/-- The filter predicate of src/main.py line 257. -/
def cityFilterPred (cs : List String) (r : Canon) : Bool :=
  match List.lookup "city" r with
  | some v => v.truthy && cityMatch v cs
  | none => false

/-- Grouping key of src/main.py line 267: the city value, defaulting to
Unknown when the key is absent. -/
def cityKey (r : Canon) : Value :=
  (List.lookup "city" r).getD (.str "Unknown")

/-- Append a record to the group of its city, creating the group at the end
on first sight — Python dict insertion order. -/
def addToGroup (gs : List (Value × List Canon)) (k : Value) (r : Canon) :
    List (Value × List Canon) :=
  match gs with
  | [] => [(k, [r])]
  | g :: t => if g.1 = k then (g.1, g.2 ++ [r]) :: t else g :: addToGroup t k r

/-- The `city_groups` dict (src/main.py lines 265-270). -/
def groupByCity (rows : List Canon) : List (Value × List Canon) :=
  rows.foldl (fun gs r => addToGroup gs (cityKey r) r) []

/-- Member name of a record, defaulting to Unknown when the key is absent. -/
def memberKey (r : Canon) : Value :=
  (List.lookup "member_name" r).getD (.str "Unknown")

/-- The per-city dict (src/main.py lines 305-327).  `members` is
`list(set(...))` — deduplicated but *not* sorted, unlike
`weather_conditions` right above it. -/
def analyzeCity (rs : List Canon) : Except String CityAnalysis :=
  match gatherConds rs with
  | .error e => .error e
  | .ok conds =>
    match valueSort conds with
    | .error e => .error e
    | .ok wcs =>
      .ok { records := rs.length
            temperature := mkCStats (numsOf "temperature" rs)
            humidity := mkCStats (numsOf "humidity" rs)
            wind := mkCStats (numsOf "wind_speed" rs)
            weather_conditions := wcs
            members := dedupFirst (rs.map memberKey) }

/-- Monadic map over `Except`, structurally recursive. -/
def mapExcept (f : α → Except String β) : List α → Except String (List β)
  | [] => .ok []
  | a :: as =>
    match f a with
    | .error e => .error e
    | .ok b =>
      match mapExcept f as with
      | .error e => .error e
      | .ok bs => .ok (b :: bs)

/-- Analysis of one `(city, group)` pair. -/
def analyzeEntry (g : Value × List Canon) : Except String (Value × CityAnalysis) :=
  match analyzeCity g.2 with
  | .error e => .error e
  | .ok a => .ok (g.1, a)

/-- The list the filter of src/main.py lines 256-259 leaves behind:
`cities=None` and `cities=[]` are both falsy and keep everything. -/
def filteredData (td : List Canon) (cities : Option (List String)) : List Canon :=
  match cities with
  | some cs => if cs = [] then td else td.filter (cityFilterPred cs)
  | none => td

/-- The function `compare_cities_analysis(team_data, cities)` of src/main.py
lines 241-334. -/
def compare_cities_analysis (td : List Canon) (cities : Option (List String)) :
    Except String CitiesResult :=
  if td = [] then .ok .empty
  else
    if filteredData td cities = [] then .ok (.error "No data found for specified cities")
    else
      match mapExcept analyzeEntry (groupByCity (filteredData td cities)) with
      | .error e => .error e
      | .ok cd =>
        .ok (.analysis
          { cities_analyzed := (groupByCity (filteredData td cities)).length
            total_records := (filteredData td cities).length
            city_data := cd
            comparison_ready := true })

/-! ## Association-list lemmas -/

theorem lookup_cons_self {β : Type} (k : String) (v : β) (t : List (String × β)) :
    List.lookup k ((k, v) :: t) = some v := by
  simp [List.lookup]

theorem lookup_cons_ne {β : Type} {k k' : String} (v : β) (t : List (String × β))
    (h : k ≠ k') : List.lookup k ((k', v) :: t) = List.lookup k t := by
  have hb : (k == k') = false := beq_eq_false_iff_ne.mpr h
  simp [List.lookup, hb]

theorem lookup_append_of_some {β : Type} {k : String} {v : β} {l₁ : List (String × β)}
    (l₂ : List (String × β)) (h : List.lookup k l₁ = some v) :
    List.lookup k (l₁ ++ l₂) = some v := by
  induction l₁ with
  | nil => simp [List.lookup] at h
  | cons kv t ih =>
    rcases kv with ⟨k', v'⟩
    by_cases hk : k = k'
    · subst hk
      rw [lookup_cons_self] at h
      simpa [lookup_cons_self] using h
    · rw [lookup_cons_ne _ _ hk] at h
      rw [List.cons_append, lookup_cons_ne _ _ hk]
      exact ih h

theorem lookup_append_of_none {β : Type} {k : String} {l₁ : List (String × β)}
    (l₂ : List (String × β)) (h : List.lookup k l₁ = none) :
    List.lookup k (l₁ ++ l₂) = List.lookup k l₂ := by
  induction l₁ with
  | nil => simp
  | cons kv t ih =>
    rcases kv with ⟨k', v'⟩
    by_cases hk : k = k'
    · subst hk; rw [lookup_cons_self] at h; cases h
    · rw [lookup_cons_ne _ _ hk] at h
      rw [List.cons_append, lookup_cons_ne _ _ hk]
      exact ih h

theorem lookup_mem {β : Type} {k : String} {v : β} :
    ∀ {l : List (String × β)}, List.lookup k l = some v → (k, v) ∈ l := by
  intro l
  induction l with
  | nil => intro h; simp [List.lookup] at h
  | cons kv t ih =>
    rcases kv with ⟨k', v'⟩
    by_cases hk : k = k'
    · subst hk
      rw [lookup_cons_self]
      intro h
      cases h
      exact List.mem_cons_self _ _
    · rw [lookup_cons_ne _ _ hk]
      intro h
      exact List.mem_cons_of_mem _ (ih h)

theorem mem_lookup_of_nodup {β : Type} {k : String} {v : β} :
    ∀ {l : List (String × β)}, (l.map Prod.fst).Nodup → (k, v) ∈ l →
      List.lookup k l = some v := by
  intro l
  induction l with
  | nil => intro _ h; cases h
  | cons kv t ih =>
    rcases kv with ⟨k', v'⟩
    intro hnd hmem
    rw [List.map_cons, List.nodup_cons] at hnd
    rcases List.mem_cons.mp hmem with heq | hmem'
    · cases heq
      exact lookup_cons_self _ _ _
    · have hk : k ≠ k' := by
        rintro rfl
        exact hnd.1 (List.mem_map.mpr ⟨(k, v), hmem', rfl⟩)
      rw [lookup_cons_ne _ _ hk]
      exact ih hnd.2 hmem'

/-! ## Structure of a successful normalization -/

theorem lookup_base_member (row : RawRecord) (fn : String) :
    List.lookup "member_name" (baseFields row fn) = some (.str (memberName row fn)) := rfl

theorem lookup_base_temperature (row : RawRecord) (fn : String) :
    List.lookup "temperature" (baseFields row fn) = none := rfl

theorem lookup_base_humidity (row : RawRecord) (fn : String) :
    List.lookup "humidity" (baseFields row fn) = none := rfl

theorem lookup_base_wind (row : RawRecord) (fn : String) :
    List.lookup "wind_speed" (baseFields row fn) = none := rfl

theorem lookup_base_wd (row : RawRecord) (fn : String) :
    List.lookup "weather_description" (baseFields row fn) = none := rfl

theorem lookup_base_wm (row : RawRecord) (fn : String) :
    List.lookup "weather_main" (baseFields row fn) = none := rfl

theorem tempSeg_of_some {row : RawRecord} {fq : String × ℚ}
    (h : findNum temp_fields row = some fq) :
    tempSeg row = [("temperature", .num (tempConvert fq.1 fq.2))] := by
  simp [tempSeg, h]

theorem tempSeg_none_key {row : RawRecord} {k : String} (h : k ≠ "temperature") :
    List.lookup k (tempSeg row) = none := by
  cases hf : findNum temp_fields row with
  | none => simp [tempSeg, hf, List.lookup]
  | some fq =>
    rw [tempSeg_of_some hf, lookup_cons_ne _ _ h]
    rfl

theorem humSeg_none_key {row : RawRecord} {k : String} (h : k ≠ "humidity") :
    List.lookup k (humSeg row) = none := by
  cases hf : findNum humidity_fields row with
  | none => simp [humSeg, hf, List.lookup]
  | some fq =>
    simp only [humSeg, hf]
    rw [lookup_cons_ne _ _ h]
    rfl

theorem windSeg_none_key {row : RawRecord} {k : String} (h : k ≠ "wind_speed") :
    List.lookup k (windSeg row) = none := by
  cases hf : findNum wind_fields row with
  | none => simp [windSeg, hf, List.lookup]
  | some fq =>
    simp only [windSeg, hf]
    rw [lookup_cons_ne _ _ h]
    rfl

theorem descSeg_shape {row : RawRecord} {d : Canon} (h : descSeg row = .ok d) :
    d = [] ∨ ∃ f v w ws, findStr desc_fields row = some (f, v) ∧ pySplit v = w :: ws ∧
      d = [("weather_description", .str v), ("weather_main", .str (pyCapitalize w))] := by
  unfold descSeg at h
  cases hf : findStr desc_fields row with
  | none =>
    rw [hf] at h
    injection h with h
    exact Or.inl h.symm
  | some fv =>
    rw [hf] at h
    dsimp only at h
    cases hs : pySplit fv.2 with
    | nil => rw [hs] at h; cases h
    | cons w ws =>
      rw [hs] at h
      injection h with h
      exact Or.inr ⟨fv.1, fv.2, w, ws, by simp [hf], hs, h.symm⟩

theorem descSeg_none_key {row : RawRecord} {d : Canon} {k : String}
    (hd : descSeg row = .ok d)
    (h1 : k ≠ "weather_description") (h2 : k ≠ "weather_main") :
    List.lookup k d = none := by
  rcases descSeg_shape hd with rfl | ⟨f, v, w, ws, _, _, rfl⟩
  · rfl
  · rw [lookup_cons_ne _ _ h1, lookup_cons_ne _ _ h2]
    rfl

theorem normalize_ok_shape {row : RawRecord} {fn : String} {rec : Canon}
    (h : normalize_row_data row fn = .ok rec) :
    ∃ d, descSeg row = .ok d ∧
      rec = (baseFields row fn ++ (tempSeg row ++ (d ++ (humSeg row ++ windSeg row)))) ++
        overflowPass row
          (baseFields row fn ++ (tempSeg row ++ (d ++ (humSeg row ++ windSeg row)))) := by
  unfold normalize_row_data fixedFields at h
  cases hd : descSeg row with
  | error e => rw [hd] at h; cases h
  | ok d =>
    rw [hd] at h
    injection h with h
    exact ⟨d, rfl, by rw [← h]; simp⟩

/-- C1: if the first temperature synonym (in table order) whose value is
non-empty and parses as a float yields `(f, v)`, the canonical
temperature is `(v-32)*5/9` when `f` mentions `(F)` or `v > 50`, and
`v` unchanged when `v ≤ 50` under a non-`(F)` key. -/
theorem temperature_unit_heuristic (row : RawRecord) (fn : String) (rec : Canon)
    (f : String) (v : ℚ)
    (hok : normalize_row_data row fn = .ok rec)
    (hfind : findNum temp_fields row = some (f, v)) :
    (containsSub f "(F)" = true ∨ 50 < v →
      List.lookup "temperature" rec = some (.num ((v - 32) * 5 / 9))) ∧
    (v ≤ 50 → containsSub f "(F)" = false →
      List.lookup "temperature" rec = some (.num v)) := by
  obtain ⟨d, hd, hrec⟩ := normalize_ok_shape hok
  subst hrec
  have htmp : List.lookup "temperature" (tempSeg row) = some (.num (tempConvert f v)) := by
    rw [tempSeg_of_some hfind]
    exact lookup_cons_self _ _ _
  have hlook : List.lookup "temperature"
      ((baseFields row fn ++ (tempSeg row ++ (d ++ (humSeg row ++ windSeg row)))) ++
        overflowPass row
          (baseFields row fn ++ (tempSeg row ++ (d ++ (humSeg row ++ windSeg row))))) =
      some (.num (tempConvert f v)) := by
    apply lookup_append_of_some
    rw [lookup_append_of_none _ (lookup_base_temperature row fn)]
    exact lookup_append_of_some _ htmp
  constructor
  · intro hcond
    have hb : (containsSub f "(F)" || decide (50 < v)) = true := by
      rcases hcond with h | h
      · simp [h]
      · simp [h]
    rw [hlook]
    unfold tempConvert
    rw [hb]
    simp
  · intro h50 hF
    have hb : (containsSub f "(F)" || decide (50 < v)) = false := by
      rw [hF, decide_eq_false (not_lt.mpr h50)]
      rfl
    rw [hlook]
    unfold tempConvert
    rw [hb]
    simp

theorem temperature_unit_heuristic_witness :
    (20 : ℚ) ≤ 50 ∧ containsSub "temp" "(F)" = false ∧
    List.lookup "temperature"
      [("member_name", Value.str "Unknown"), ("timestamp", Value.str "Unknown"),
       ("city", Value.str "Unknown"), ("country", Value.str "Unknown"),
       ("temperature", Value.num 20), ("temp", Value.str "20")] = some (.num 20) :=
  ⟨by decide, by decide,
    (temperature_unit_heuristic [("temp", "20")] "x"
      [("member_name", Value.str "Unknown"), ("timestamp", Value.str "Unknown"),
       ("city", Value.str "Unknown"), ("country", Value.str "Unknown"),
       ("temperature", Value.num 20), ("temp", Value.str "20")]
      "temp" 20 (by decide) (by decide)).2 (by decide) (by decide)⟩

/-- C2 (amended): the canonical `member_name` is exactly `memberName`:
the raw `member_name` value verbatim whenever the key is present — even
when that value is the empty string — else the capitalization of the
file name with all occurrences of `weather_data_` and `.csv` removed
when the name mentions `weather_data_`, else `"Unknown"`. -/
theorem member_name_resolution (row : RawRecord) (fn : String) (rec : Canon)
    (hok : normalize_row_data row fn = .ok rec) :
    List.lookup "member_name" rec = some (.str (memberName row fn)) ∧
    (∀ s, List.lookup "member_name" row = some s → memberName row fn = s) ∧
    (List.lookup "member_name" row = none → containsSub fn "weather_data_" = false →
      memberName row fn = "Unknown") := by
  obtain ⟨d, hd, hrec⟩ := normalize_ok_shape hok
  subst hrec
  refine ⟨?_, ?_, ?_⟩
  · exact lookup_append_of_some _ (lookup_append_of_some _ (lookup_base_member row fn))
  · intro s hs
    unfold memberName
    rw [hs]
  · intro hn hc
    unfold memberName
    rw [hn, hc]
    rfl

theorem member_name_resolution_witness :
    List.lookup "member_name"
        [("member_name", Value.str "Bob"), ("timestamp", Value.str "Unknown"),
         ("city", Value.str "Unknown"), ("country", Value.str "Unknown")] =
      some (.str (memberName [("member_name", "Bob")] "weather_data_x.csv")) ∧
    memberName [("member_name", "Bob")] "weather_data_x.csv" = "Bob" :=
  ⟨(member_name_resolution [("member_name", "Bob")] "weather_data_x.csv"
      [("member_name", Value.str "Bob"), ("timestamp", Value.str "Unknown"),
       ("city", Value.str "Unknown"), ("country", Value.str "Unknown")] (by decide)).1,
   (member_name_resolution [("member_name", "Bob")] "weather_data_x.csv"
      [("member_name", Value.str "Bob"), ("timestamp", Value.str "Unknown"),
       ("city", Value.str "Unknown"), ("country", Value.str "Unknown")] (by decide)).2.1
     "Bob" (by decide)⟩

/-- C2 counterexample: a raw record whose `member_name` value is the
empty string yields a canonical record whose `member_name` is empty,
refuting "in no case is member_name the empty string". -/
theorem member_name_empty_counterexample :
    normalize_row_data [("member_name", "")] "weather_data_eric.csv" =
      .ok [("member_name", Value.str ""), ("timestamp", Value.str "Unknown"),
           ("city", Value.str "Unknown"), ("country", Value.str "Unknown")] ∧
    List.lookup "member_name"
        [("member_name", Value.str ""), ("timestamp", Value.str "Unknown"),
         ("city", Value.str "Unknown"), ("country", Value.str "Unknown")] =
      some (Value.str "") := by
  constructor
  · decide
  · decide

/-- C8 (amended): when the first description synonym with a truthy value
matches `(f, v)` and `v` has at least one whitespace-delimited word,
the canonical record stores `v` under `weather_description` and the
capitalized first word under `weather_main`. -/
theorem description_resolution (row : RawRecord) (fn : String) (rec : Canon)
    (f v w : String) (ws : List String)
    (hok : normalize_row_data row fn = .ok rec)
    (hfind : findStr desc_fields row = some (f, v))
    (hsplit : pySplit v = w :: ws) :
    List.lookup "weather_description" rec = some (.str v) ∧
    List.lookup "weather_main" rec = some (.str (pyCapitalize w)) := by
  obtain ⟨d, hd, hrec⟩ := normalize_ok_shape hok
  have hdval : d = [("weather_description", .str v), ("weather_main", .str (pyCapitalize w))] := by
    unfold descSeg at hd
    rw [hfind] at hd
    dsimp only at hd
    rw [hsplit] at hd
    injection hd with hd
    exact hd.symm
  subst hrec hdval
  constructor
  · apply lookup_append_of_some
    rw [lookup_append_of_none _ (lookup_base_wd row fn)]
    rw [lookup_append_of_none _ (tempSeg_none_key (by decide))]
    exact lookup_append_of_some _ (lookup_cons_self _ _ _)
  · apply lookup_append_of_some
    rw [lookup_append_of_none _ (lookup_base_wm row fn)]
    rw [lookup_append_of_none _ (tempSeg_none_key (by decide))]
    apply lookup_append_of_some
    rw [lookup_cons_ne _ _ (by decide : "weather_main" ≠ "weather_description")]
    exact lookup_cons_self _ _ _

theorem description_resolution_witness :
    List.lookup "weather_description"
        [("member_name", Value.str "Unknown"), ("timestamp", Value.str "Unknown"),
         ("city", Value.str "Unknown"), ("country", Value.str "Unknown"),
         ("weather_description", Value.str "light rain"), ("weather_main", Value.str "Light"),
         ("weather", Value.str "light rain")] = some (.str "light rain") ∧
    List.lookup "weather_main"
        [("member_name", Value.str "Unknown"), ("timestamp", Value.str "Unknown"),
         ("city", Value.str "Unknown"), ("country", Value.str "Unknown"),
         ("weather_description", Value.str "light rain"), ("weather_main", Value.str "Light"),
         ("weather", Value.str "light rain")] = some (.str (pyCapitalize "light")) ∧
    pyCapitalize "light" = "Light" :=
  ⟨(description_resolution [("weather", "light rain")] "f"
      [("member_name", Value.str "Unknown"), ("timestamp", Value.str "Unknown"),
       ("city", Value.str "Unknown"), ("country", Value.str "Unknown"),
       ("weather_description", Value.str "light rain"), ("weather_main", Value.str "Light"),
       ("weather", Value.str "light rain")]
      "weather" "light rain" "light" ["rain"] (by decide) (by decide) (by decide)).1,
   (description_resolution [("weather", "light rain")] "f"
      [("member_name", Value.str "Unknown"), ("timestamp", Value.str "Unknown"),
       ("city", Value.str "Unknown"), ("country", Value.str "Unknown"),
       ("weather_description", Value.str "light rain"), ("weather_main", Value.str "Light"),
       ("weather", Value.str "light rain")]
      "weather" "light rain" "light" ["rain"] (by decide) (by decide) (by decide)).2,
   by decide⟩

/-- C8 counterexample: a recognized description synonym with a
non-empty, all-whitespace value makes `normalize_row_data` raise
instead of producing a canonical record, so the claim fails as stated
for such records. -/
theorem description_whitespace_counterexample :
    normalize_row_data [("Description", "  ")] "g.csv" =
      .error "IndexError: list index out of range" := by decide

/-- C10: `normalize_row_data` is not total — on a raw record whose
matched description value is non-empty but all whitespace,
`row[field].split()[0]` raises `IndexError` (here: the embedded run
returns the corresponding error) instead of returning a record. -/
theorem normalize_whitespace_description_raises :
    normalize_row_data [("weather", " ")] "f.csv" =
      .error "IndexError: list index out of range" := by decide

/-! ## The copy loop as a filter -/

theorem overflow_fold_general (fixed : Canon) :
    ∀ (row : RawRecord) (acc : Canon),
      (row.map Prod.fst).Nodup →
      (∀ kv ∈ row, hasKey acc kv.1 = false) →
      List.foldl (fun acc kv =>
        if kv.2 != "" && !hasKey fixed kv.1 && !hasKey acc kv.1 then
          acc ++ [(kv.1, Value.str kv.2)]
        else acc) acc row =
      acc ++ (row.filter (fun kv => kv.2 != "" && !hasKey fixed kv.1)).map
        (fun kv => (kv.1, Value.str kv.2)) := by
  intro row
  induction row with
  | nil => intro acc _ _; simp
  | cons kv t ih =>
    intro acc hnd hacc
    rw [List.map_cons, List.nodup_cons] at hnd
    have hkv : hasKey acc kv.1 = false := hacc kv (List.mem_cons_self _ _)
    rw [List.foldl_cons]
    by_cases hc : (kv.2 != "" && !hasKey fixed kv.1) = true
    · have hcond : (kv.2 != "" && !hasKey fixed kv.1 && !hasKey acc kv.1) = true := by
        simp only [Bool.and_eq_true] at hc ⊢
        exact ⟨hc, by rw [hkv]; rfl⟩
      rw [if_pos hcond]
      have hstep := ih (acc ++ [(kv.1, Value.str kv.2)]) hnd.2 ?_
      · rw [hstep, List.filter_cons]
        simp [hc, List.append_assoc]
      · intro kv' hkv'
        have h1 : hasKey acc kv'.1 = false := hacc kv' (List.mem_cons_of_mem _ hkv')
        have h2 : ¬ kv.1 = kv'.1 := by
          intro he
          exact hnd.1 (he ▸ List.mem_map.mpr ⟨kv', hkv', rfl⟩)
        simp only [hasKey, List.any_append] at h1 ⊢
        simp [h1, h2]
    · have hcf : (kv.2 != "" && !hasKey fixed kv.1) = false := by simpa using hc
      rw [if_neg (by simp [hcf])]
      have hstep := ih acc hnd.2 (fun kv' hkv' => hacc kv' (List.mem_cons_of_mem _ hkv'))
      rw [hstep, List.filter_cons]
      simp [hcf]

theorem overflowPass_eq_filter {row : RawRecord} (fixed : Canon)
    (hnd : (row.map Prod.fst).Nodup) :
    overflowPass row fixed =
      (row.filter (fun kv => kv.2 != "" && !hasKey fixed kv.1)).map
        (fun kv => (kv.1, Value.str kv.2)) := by
  unfold overflowPass
  rw [overflow_fold_general fixed row [] hnd (fun kv _ => rfl)]
  simp

/-- C7 (amended): the copy loop appends, in input order, exactly the raw
pairs whose value is non-empty and whose key is not already a key of the
resolved fixed record; a consumed synonym key whose spelling differs
from its canonical field name is therefore copied as well. -/
theorem overflow_passthrough (row : RawRecord) (fn : String) (fx : Canon)
    (hnd : (row.map Prod.fst).Nodup)
    (hfx : fixedFields row fn = .ok fx) :
    normalize_row_data row fn =
      .ok (fx ++ (row.filter (fun kv => kv.2 != "" && !hasKey fx kv.1)).map
        (fun kv => (kv.1, Value.str kv.2))) := by
  unfold normalize_row_data
  rw [hfx, ← overflowPass_eq_filter fx hnd]

theorem overflow_passthrough_witness :
    normalize_row_data [("extra", "hello")] "x" =
      .ok ([("member_name", Value.str "Unknown"), ("timestamp", Value.str "Unknown"),
            ("city", Value.str "Unknown"), ("country", Value.str "Unknown")] ++
        (([("extra", "hello")] : RawRecord).filter
            (fun kv => kv.2 != "" &&
              !hasKey [("member_name", Value.str "Unknown"), ("timestamp", Value.str "Unknown"),
                ("city", Value.str "Unknown"), ("country", Value.str "Unknown")] kv.1)).map
          (fun kv => (kv.1, Value.str kv.2))) :=
  overflow_passthrough [("extra", "hello")] "x"
    [("member_name", Value.str "Unknown"), ("timestamp", Value.str "Unknown"),
     ("city", Value.str "Unknown"), ("country", Value.str "Unknown")]
    (by decide) (by decide)

/-- C7 counterexample: the key `Temp` is consumed as the temperature
synonym, yet the pair `("Temp", "20")` is additionally copied verbatim
into the canonical record, refuting "a raw key that was consumed as a
synonym does not additionally appear". -/
theorem consumed_synonym_copied_counterexample :
    normalize_row_data [("Temp", "20")] "f" =
      .ok [("member_name", Value.str "Unknown"), ("timestamp", Value.str "Unknown"),
           ("city", Value.str "Unknown"), ("country", Value.str "Unknown"),
           ("temperature", Value.num 20), ("Temp", Value.str "20")] ∧
    List.lookup "Temp"
        [("member_name", Value.str "Unknown"), ("timestamp", Value.str "Unknown"),
         ("city", Value.str "Unknown"), ("country", Value.str "Unknown"),
         ("temperature", Value.num 20), ("Temp", Value.str "20")] =
      some (Value.str "20") := by
  constructor
  · decide
  · decide

/-! ## Values reachable under the numeric keys -/

theorem tempSeg_empty {row : RawRecord} (h : findNum temp_fields row = none) :
    tempSeg row = [] := by
  simp [tempSeg, h]

theorem humSeg_empty {row : RawRecord} (h : findNum humidity_fields row = none) :
    humSeg row = [] := by
  simp [humSeg, h]

theorem windSeg_empty {row : RawRecord} (h : findNum wind_fields row = none) :
    windSeg row = [] := by
  simp [windSeg, h]

theorem fixed_lookup_num {row : RawRecord} {fn : String} {d : Canon} {field : String}
    (hfield : field = "temperature" ∨ field = "humidity" ∨ field = "wind_speed")
    (hd : descSeg row = .ok d) {u : Value}
    (h : List.lookup field
      (baseFields row fn ++ (tempSeg row ++ (d ++ (humSeg row ++ windSeg row)))) = some u) :
    ∃ q, u = Value.num q := by
  have hbase : List.lookup field (baseFields row fn) = none := by
    rcases hfield with rfl | rfl | rfl
    · exact lookup_base_temperature row fn
    · exact lookup_base_humidity row fn
    · exact lookup_base_wind row fn
  rw [lookup_append_of_none _ hbase] at h
  have hdn : List.lookup field d = none := by
    rcases hfield with rfl | rfl | rfl
    · exact descSeg_none_key hd (by decide) (by decide)
    · exact descSeg_none_key hd (by decide) (by decide)
    · exact descSeg_none_key hd (by decide) (by decide)
  cases htp : List.lookup field (tempSeg row) with
  | some w =>
    rw [lookup_append_of_some _ htp] at h
    injection h with h
    subst h
    cases hf : findNum temp_fields row with
    | none => rw [tempSeg_empty hf] at htp; cases htp
    | some fq =>
      rw [tempSeg_of_some hf] at htp
      by_cases hfe : field = "temperature"
      · subst hfe
        rw [lookup_cons_self] at htp
        exact ⟨_, (Option.some.inj htp).symm⟩
      · rw [lookup_cons_ne _ _ hfe] at htp
        cases htp
  | none =>
    rw [lookup_append_of_none _ htp, lookup_append_of_none _ hdn] at h
    cases hhu : List.lookup field (humSeg row) with
    | some w =>
      rw [lookup_append_of_some _ hhu] at h
      injection h with h
      subst h
      cases hf : findNum humidity_fields row with
      | none => rw [humSeg_empty hf] at hhu; cases hhu
      | some fq =>
        simp only [humSeg, hf] at hhu
        by_cases hfe : field = "humidity"
        · subst hfe
          rw [lookup_cons_self] at hhu
          exact ⟨_, (Option.some.inj hhu).symm⟩
        · rw [lookup_cons_ne _ _ hfe] at hhu
          cases hhu
    | none =>
      rw [lookup_append_of_none _ hhu] at h
      cases hf : findNum wind_fields row with
      | none => rw [windSeg_empty hf] at h; cases h
      | some fq =>
        simp only [windSeg, hf] at h
        by_cases hfe : field = "wind_speed"
        · subst hfe
          rw [lookup_cons_self] at h
          exact ⟨_, (Option.some.inj h).symm⟩
        · rw [lookup_cons_ne _ _ hfe] at h
          cases h

theorem lookup_str_map {k : String} {v : Value} :
    ∀ {l : RawRecord},
      List.lookup k (l.map (fun kv => (kv.1, Value.str kv.2))) = some v →
      ∃ s, v = Value.str s ∧ List.lookup k l = some s := by
  intro l
  induction l with
  | nil => intro h; cases h
  | cons kv t ih =>
    rcases kv with ⟨k', v'⟩
    by_cases hk : k = k'
    · subst hk
      rw [List.map_cons, lookup_cons_self]
      intro h
      exact ⟨v', (Option.some.inj h).symm, lookup_cons_self _ _ _⟩
    · rw [List.map_cons, lookup_cons_ne _ _ hk]
      intro h
      obtain ⟨s, hs, hl⟩ := ih h
      exact ⟨s, hs, by rw [lookup_cons_ne _ _ hk]; exact hl⟩

/-- C3 (amended): under each of the keys `temperature`, `humidity` and
`wind_speed`, a canonical record holds either a parsed float, or — when
no synonym parsed and the raw record itself carries that very key with
a non-empty value — the raw string copied verbatim by the trailing copy
loop. -/
theorem numeric_fields_parsed (row : RawRecord) (fn : String) (rec : Canon) (field : String)
    (hfield : field = "temperature" ∨ field = "humidity" ∨ field = "wind_speed")
    (hnd : (row.map Prod.fst).Nodup)
    (hok : normalize_row_data row fn = .ok rec) :
    ∀ v, List.lookup field rec = some v →
      (∃ q, v = Value.num q) ∨
      (∃ s, v = Value.str s ∧ List.lookup field row = some s) := by
  obtain ⟨d, hd, hrec⟩ := normalize_ok_shape hok
  subst hrec
  intro v hv
  cases hfx : List.lookup field
      (baseFields row fn ++ (tempSeg row ++ (d ++ (humSeg row ++ windSeg row)))) with
  | some u =>
    rw [lookup_append_of_some _ hfx] at hv
    injection hv with hv
    subst hv
    exact Or.inl (fixed_lookup_num hfield hd hfx)
  | none =>
    rw [lookup_append_of_none _ hfx] at hv
    rw [overflowPass_eq_filter _ hnd] at hv
    obtain ⟨s, hs, hl⟩ := lookup_str_map hv
    refine Or.inr ⟨s, hs, ?_⟩
    exact mem_lookup_of_nodup hnd (List.mem_of_mem_filter (lookup_mem hl))

theorem numeric_fields_parsed_witness :
    (∃ q, Value.num 55 = Value.num q) ∨
    (∃ s, Value.num 55 = Value.str s ∧
      List.lookup "humidity" ([("humidity", "55")] : RawRecord) = some s) :=
  numeric_fields_parsed [("humidity", "55")] "x"
    [("member_name", Value.str "Unknown"), ("timestamp", Value.str "Unknown"),
     ("city", Value.str "Unknown"), ("country", Value.str "Unknown"),
     ("humidity", Value.num 55)]
    "humidity" (Or.inr (Or.inl rfl)) (by decide) (by decide) (Value.num 55) (by decide)

/-- C3 counterexample: with raw key `temperature` holding the
unparsable value `"abc"`, the canonical record carries the raw string
`"abc"` under `temperature`, refuting "never a raw unconverted string". -/
theorem numeric_field_raw_string_counterexample :
    normalize_row_data [("temperature", "abc")] "f" =
      .ok [("member_name", Value.str "Unknown"), ("timestamp", Value.str "Unknown"),
           ("city", Value.str "Unknown"), ("country", Value.str "Unknown"),
           ("temperature", Value.str "abc")] ∧
    List.lookup "temperature"
        [("member_name", Value.str "Unknown"), ("timestamp", Value.str "Unknown"),
         ("city", Value.str "Unknown"), ("country", Value.str "Unknown"),
         ("temperature", Value.str "abc")] = some (Value.str "abc") := by
  constructor
  · decide
  · decide

/-! ## Team-wide statistics -/

theorem length_filterMap_eq {α β : Type} (f : α → Option β) :
    ∀ l : List α, (l.filterMap f).length = (l.filter (fun a => (f a).isSome)).length := by
  intro l
  induction l with
  | nil => rfl
  | cons a t ih =>
    rw [List.filterMap_cons, List.filter_cons]
    cases hf : f a <;> simp [hf, ih]

theorem mkNumStats_count_filter (field : String) (td : List Canon) :
    (mkNumStats (numsOf field td)).count =
      (td.filter (fun d => ((List.lookup field d).bind valToFloat?).isSome)).length := by
  unfold mkNumStats numsOf
  exact length_filterMap_eq _ td

theorem mkNumStats_average_of_ne {vals : List ℚ} (h : vals.length ≠ 0) :
    (mkNumStats vals).average = some (vals.sum / (vals.length : ℚ)) := by
  unfold mkNumStats
  cases vals with
  | nil => cases h rfl
  | cons v t => rfl

theorem mkNumStats_none_of_zero {vals : List ℚ} (h : vals.length = 0) :
    (mkNumStats vals).highest = none ∧ (mkNumStats vals).lowest = none ∧
    (mkNumStats vals).average = none := by
  rw [List.length_eq_zero] at h
  subst h
  exact ⟨rfl, rfl, rfl⟩

theorem compare_team_data_ok {td : List Canon} {c : TeamComparison}
    (hne : td ≠ []) (h : compare_team_data td = .ok (.stats c)) :
    c.temperature_stats = mkNumStats (numsOf "temperature" td) ∧
    c.humidity_stats = mkNumStats (numsOf "humidity" td) ∧
    c.wind_stats = mkNumStats (numsOf "wind_speed" td) ∧
    c.total_records = td.length := by
  unfold compare_team_data at h
  rw [if_neg hne] at h
  cases h1 : gatherConds td with
  | error e => rw [h1] at h; cases h
  | ok conds =>
    rw [h1] at h
    dsimp only at h
    cases h2 : valueSort conds with
    | error e => rw [h2] at h; cases h
    | ok wcs =>
      rw [h2] at h
      dsimp only at h
      cases h3 : valueSort (gather "country" td) with
      | error e => rw [h3] at h; cases h
      | ok cos =>
        rw [h3] at h
        dsimp only at h
        cases h4 : valueSort (gather "city" td) with
        | error e => rw [h4] at h; cases h
        | ok cis =>
          rw [h4] at h
          dsimp only at h
          cases h5 : valueSort (gather "member_name" td) with
          | error e => rw [h5] at h; cases h
          | ok mes =>
            rw [h5] at h
            dsimp only at h
            injection h with h
            injection h with h
            subst h
            exact ⟨rfl, rfl, rfl, rfl⟩

/-- C4: for each numeric field, the team-wide `count` is the number of
records whose field value converts to a float; the `average` is exactly
`sum/count` whenever `count ≠ 0`; and `highest`, `lowest`, `average`
are all `None` (never `0`) when `count = 0`. -/
theorem team_statistics_exact (td : List Canon) (c : TeamComparison)
    (hne : td ≠ []) (hok : compare_team_data td = .ok (.stats c)) :
    (c.temperature_stats.count =
        (td.filter (fun d => ((List.lookup "temperature" d).bind valToFloat?).isSome)).length ∧
      (c.temperature_stats.count ≠ 0 → c.temperature_stats.average =
        some ((numsOf "temperature" td).sum / (c.temperature_stats.count : ℚ))) ∧
      (c.temperature_stats.count = 0 → c.temperature_stats.highest = none ∧
        c.temperature_stats.lowest = none ∧ c.temperature_stats.average = none)) ∧
    (c.humidity_stats.count =
        (td.filter (fun d => ((List.lookup "humidity" d).bind valToFloat?).isSome)).length ∧
      (c.humidity_stats.count ≠ 0 → c.humidity_stats.average =
        some ((numsOf "humidity" td).sum / (c.humidity_stats.count : ℚ))) ∧
      (c.humidity_stats.count = 0 → c.humidity_stats.highest = none ∧
        c.humidity_stats.lowest = none ∧ c.humidity_stats.average = none)) ∧
    (c.wind_stats.count =
        (td.filter (fun d => ((List.lookup "wind_speed" d).bind valToFloat?).isSome)).length ∧
      (c.wind_stats.count ≠ 0 → c.wind_stats.average =
        some ((numsOf "wind_speed" td).sum / (c.wind_stats.count : ℚ))) ∧
      (c.wind_stats.count = 0 → c.wind_stats.highest = none ∧
        c.wind_stats.lowest = none ∧ c.wind_stats.average = none)) := by
  obtain ⟨ht, hh, hw, _⟩ := compare_team_data_ok hne hok
  refine ⟨?_, ?_, ?_⟩
  · rw [ht]
    refine ⟨mkNumStats_count_filter _ _, fun hc => ?_, fun hc => mkNumStats_none_of_zero hc⟩
    exact mkNumStats_average_of_ne hc
  · rw [hh]
    refine ⟨mkNumStats_count_filter _ _, fun hc => ?_, fun hc => mkNumStats_none_of_zero hc⟩
    exact mkNumStats_average_of_ne hc
  · rw [hw]
    refine ⟨mkNumStats_count_filter _ _, fun hc => ?_, fun hc => mkNumStats_none_of_zero hc⟩
    exact mkNumStats_average_of_ne hc

theorem team_statistics_exact_witness :
    0 = ([[("city", Value.str "X")]].filter
      (fun d => ((List.lookup "temperature" d).bind valToFloat?).isSome)).length :=
  (team_statistics_exact [[("city", Value.str "X")]]
    { total_members := 0
      total_cities := 1
      total_records := 1
      temperature_stats := { count := 0, highest := none, lowest := none, average := none }
      humidity_stats := { count := 0, highest := none, lowest := none, average := none }
      wind_stats := { count := 0, highest := none, lowest := none, average := none }
      weather_conditions := []
      countries := []
      cities := [Value.str "X"]
      members := [] }
    (by decide) (by decide)).1.1

/-! ## Grouping by city -/

theorem addToGroup_sum (gs : List (Value × List Canon)) (k : Value) (r : Canon) :
    ((addToGroup gs k r).map (fun g => g.2.length)).sum =
      (gs.map (fun g => g.2.length)).sum + 1 := by
  induction gs with
  | nil => simp [addToGroup]
  | cons g t ih =>
    by_cases hk : g.1 = k
    · simp [addToGroup, hk]
      omega
    · simp [addToGroup, hk, ih]
      omega

theorem addToGroup_keys (gs : List (Value × List Canon)) (k : Value) (r : Canon) :
    (addToGroup gs k r).map Prod.fst =
      if k ∈ gs.map Prod.fst then gs.map Prod.fst else gs.map Prod.fst ++ [k] := by
  induction gs with
  | nil => simp [addToGroup]
  | cons g t ih =>
    by_cases hk : g.1 = k
    · simp [addToGroup, hk, List.mem_cons]
    · have hk' : ¬ k = g.1 := fun h => hk h.symm
      by_cases hm : k ∈ t.map Prod.fst
      · simp [addToGroup, hk, ih, hm, List.mem_cons, hk']
      · simp [addToGroup, hk, ih, hm, List.mem_cons, hk']

theorem addToGroup_keys_nodup {gs : List (Value × List Canon)} (k : Value) (r : Canon)
    (h : (gs.map Prod.fst).Nodup) : ((addToGroup gs k r).map Prod.fst).Nodup := by
  rw [addToGroup_keys]
  by_cases hm : k ∈ gs.map Prod.fst
  · simp [hm, h]
  · simp [hm, List.nodup_append, h]

theorem addToGroup_consistent {gs : List (Value × List Canon)} {k : Value} {r : Canon}
    (hP : ∀ g ∈ gs, ∀ x ∈ g.2, cityKey x = g.1) (hr : cityKey r = k) :
    ∀ g ∈ addToGroup gs k r, ∀ x ∈ g.2, cityKey x = g.1 := by
  induction gs with
  | nil =>
    intro g hg x hx
    simp [addToGroup] at hg
    subst hg
    simp at hx
    subst hx
    exact hr
  | cons g0 t ih =>
    by_cases hk : g0.1 = k
    · intro g hg x hx
      simp only [addToGroup, if_pos hk] at hg
      rcases List.mem_cons.mp hg with rfl | hg'
      · rcases List.mem_append.mp hx with hx' | hx'
        · exact hP g0 (List.mem_cons_self _ _) x hx'
        · simp at hx'
          subst hx'
          rw [hr, hk]
      · exact hP g (List.mem_cons_of_mem _ hg') x hx
    · intro g hg x hx
      simp only [addToGroup, if_neg hk] at hg
      rcases List.mem_cons.mp hg with rfl | hg'
      · exact hP g (List.mem_cons_self _ _) x hx
      · exact ih (fun g' hg' => hP g' (List.mem_cons_of_mem _ hg')) g hg' x hx

theorem addToGroup_mem_new (gs : List (Value × List Canon)) (k : Value) (r : Canon) :
    ∃ g ∈ addToGroup gs k r, r ∈ g.2 := by
  induction gs with
  | nil => exact ⟨(k, [r]), by simp [addToGroup]⟩
  | cons g0 t ih =>
    by_cases hk : g0.1 = k
    · refine ⟨(g0.1, g0.2 ++ [r]), ?_, by simp⟩
      simp [addToGroup, hk]
    · obtain ⟨g, hg, hgr⟩ := ih
      exact ⟨g, by simp [addToGroup, hk, hg], hgr⟩

theorem addToGroup_mem_old {gs : List (Value × List Canon)} (k : Value) (r : Canon)
    {x : Canon} {g0 : Value × List Canon} (h : g0 ∈ gs) (hx : x ∈ g0.2) :
    ∃ g ∈ addToGroup gs k r, x ∈ g.2 := by
  induction gs with
  | nil => cases h
  | cons g1 t ih =>
    by_cases hk : g1.1 = k
    · rcases List.mem_cons.mp h with heq | h'
      · subst heq
        exact ⟨(g0.1, g0.2 ++ [r]), by simp [addToGroup, hk], by simp [hx]⟩
      · exact ⟨g0, by simp [addToGroup, hk, h'], hx⟩
    · rcases List.mem_cons.mp h with rfl | h'
      · exact ⟨g0, by simp [addToGroup, hk], hx⟩
      · obtain ⟨g, hg, hgx⟩ := ih h'
        exact ⟨g, by simp [addToGroup, hk]; right; simpa using hg, hgx⟩

theorem groupFold_sum :
    ∀ (rows : List Canon) (gs : List (Value × List Canon)),
      (((rows.foldl (fun gs r => addToGroup gs (cityKey r) r) gs)).map
        (fun g => g.2.length)).sum = (gs.map (fun g => g.2.length)).sum + rows.length := by
  intro rows
  induction rows with
  | nil => intro gs; simp
  | cons r t ih =>
    intro gs
    rw [List.foldl_cons, ih (addToGroup gs (cityKey r) r), addToGroup_sum]
    simp
    omega

theorem groupFold_nodup :
    ∀ (rows : List Canon) (gs : List (Value × List Canon)),
      (gs.map Prod.fst).Nodup →
      ((rows.foldl (fun gs r => addToGroup gs (cityKey r) r) gs).map Prod.fst).Nodup := by
  intro rows
  induction rows with
  | nil => intro gs h; exact h
  | cons r t ih =>
    intro gs h
    rw [List.foldl_cons]
    exact ih _ (addToGroup_keys_nodup _ _ h)

theorem groupFold_consistent :
    ∀ (rows : List Canon) (gs : List (Value × List Canon)),
      (∀ g ∈ gs, ∀ x ∈ g.2, cityKey x = g.1) →
      ∀ g ∈ rows.foldl (fun gs r => addToGroup gs (cityKey r) r) gs, ∀ x ∈ g.2,
        cityKey x = g.1 := by
  intro rows
  induction rows with
  | nil => intro gs h; exact h
  | cons r t ih =>
    intro gs h
    rw [List.foldl_cons]
    exact ih _ (addToGroup_consistent h rfl)

theorem groupFold_mem :
    ∀ (rows : List Canon) (gs : List (Value × List Canon)) (x : Canon),
      ((∃ g ∈ gs, x ∈ g.2) ∨ x ∈ rows) →
      ∃ g ∈ rows.foldl (fun gs r => addToGroup gs (cityKey r) r) gs, x ∈ g.2 := by
  intro rows
  induction rows with
  | nil =>
    intro gs x h
    rcases h with h | h
    · exact h
    · cases h
  | cons r t ih =>
    intro gs x h
    rw [List.foldl_cons]
    rcases h with ⟨g0, hg0, hx⟩ | h
    · exact ih _ x (Or.inl (addToGroup_mem_old _ _ hg0 hx))
    · rcases List.mem_cons.mp h with rfl | h'
      · exact ih _ x (Or.inl (addToGroup_mem_new _ _ _))
      · exact ih _ x (Or.inr h')

theorem groupByCity_sum (rows : List Canon) :
    ((groupByCity rows).map (fun g => g.2.length)).sum = rows.length := by
  unfold groupByCity
  rw [groupFold_sum]
  simp

theorem groupByCity_nodup (rows : List Canon) :
    ((groupByCity rows).map Prod.fst).Nodup :=
  groupFold_nodup rows [] (by simp)

theorem groupByCity_consistent (rows : List Canon) :
    ∀ g ∈ groupByCity rows, ∀ x ∈ g.2, cityKey x = g.1 :=
  groupFold_consistent rows [] (by intro g hg; cases hg)

theorem groupByCity_mem (rows : List Canon) (x : Canon) (hx : x ∈ rows) :
    ∃ g ∈ groupByCity rows, x ∈ g.2 :=
  groupFold_mem rows [] x (Or.inr hx)

/-! ## Destructuring the per-city analysis -/

theorem analyzeEntry_ok {g : Value × List Canon} {b : Value × CityAnalysis}
    (h : analyzeEntry g = .ok b) :
    b.1 = g.1 ∧ b.2.records = g.2.length ∧
    b.2.members = dedupFirst (g.2.map memberKey) := by
  unfold analyzeEntry analyzeCity at h
  cases h1 : gatherConds g.2 with
  | error e => rw [h1] at h; cases h
  | ok conds =>
    rw [h1] at h
    dsimp only at h
    cases h2 : valueSort conds with
    | error e => rw [h2] at h; cases h
    | ok wcs =>
      rw [h2] at h
      dsimp only at h
      injection h with h
      subst h
      exact ⟨rfl, rfl, rfl⟩

theorem mapExcept_records {gs : List (Value × List Canon)} :
    ∀ {cd : List (Value × CityAnalysis)}, mapExcept analyzeEntry gs = .ok cd →
      cd.map (fun g => g.2.records) = gs.map (fun g => g.2.length) := by
  induction gs with
  | nil => intro cd h; injection h with h; subst h; rfl
  | cons g t ih =>
    intro cd h
    unfold mapExcept at h
    cases h1 : analyzeEntry g with
    | error e => rw [h1] at h; cases h
    | ok b =>
      rw [h1] at h
      dsimp only at h
      cases h2 : mapExcept analyzeEntry t with
      | error e => rw [h2] at h; cases h
      | ok bs =>
        rw [h2] at h
        injection h with h
        subst h
        rw [List.map_cons, List.map_cons, ih h2, (analyzeEntry_ok h1).2.1]

theorem mapExcept_mem {α β : Type} {f : α → Except String β} :
    ∀ {l : List α} {l' : List β}, mapExcept f l = .ok l' →
      ∀ b ∈ l', ∃ a ∈ l, f a = .ok b := by
  intro l
  induction l with
  | nil =>
    intro l' h b hb
    injection h with h
    subst h
    cases hb
  | cons a t ih =>
    intro l' h b hb
    unfold mapExcept at h
    cases h1 : f a with
    | error e => rw [h1] at h; cases h
    | ok b0 =>
      rw [h1] at h
      dsimp only at h
      cases h2 : mapExcept f t with
      | error e => rw [h2] at h; cases h
      | ok bs =>
        rw [h2] at h
        injection h with h
        subst h
        rcases List.mem_cons.mp hb with rfl | hb'
        · exact ⟨a, List.mem_cons_self _ _, h1⟩
        · obtain ⟨a', ha', hf⟩ := ih h2 b hb'
          exact ⟨a', List.mem_cons_of_mem _ ha', hf⟩

theorem compare_cities_ok {td : List Canon} {res : CitiesOk}
    (h : compare_cities_analysis td none = .ok (.analysis res)) :
    mapExcept analyzeEntry (groupByCity td) = .ok res.city_data ∧
    res.total_records = td.length ∧
    res.cities_analyzed = (groupByCity td).length := by
  unfold compare_cities_analysis at h
  by_cases hne : td = []
  · rw [if_pos hne] at h
    injection h with h
    cases h
  · rw [if_neg hne] at h
    have hfl : filteredData td none = td := rfl
    rw [hfl, if_neg hne] at h
    cases h1 : mapExcept analyzeEntry (groupByCity td) with
    | error e => rw [h1] at h; cases h
    | ok cd =>
      rw [h1] at h
      dsimp only at h
      injection h with h
      injection h with h
      subst h
      exact ⟨rfl, rfl, rfl⟩

/-- C5: with no allow-list, every record lands in exactly one city
group (grouped by its exact city value), the per-group `records` counts
sum to the reported `total_records`, and that total is the number of
input records. -/
theorem cities_partition (td : List Canon) (res : CitiesOk)
    (hne : td ≠ [])
    (hok : compare_cities_analysis td none = .ok (.analysis res)) :
    res.total_records = td.length ∧
    (res.city_data.map (fun g => g.2.records)).sum = res.total_records ∧
    ((groupByCity td).map (fun g => g.2.length)).sum = td.length ∧
    (∀ r ∈ td, ∃ g ∈ groupByCity td, r ∈ g.2) ∧
    ((groupByCity td).map Prod.fst).Nodup ∧
    (∀ g ∈ groupByCity td, ∀ r ∈ g.2, cityKey r = g.1) := by
  obtain ⟨hmap, htot, _⟩ := compare_cities_ok hok
  refine ⟨htot, ?_, groupByCity_sum td, fun r hr => groupByCity_mem td r hr,
    groupByCity_nodup td, groupByCity_consistent td⟩
  rw [mapExcept_records hmap, groupByCity_sum td, htot]

theorem cities_partition_witness :
    (1 : Nat) = ([[("city", Value.str "X")]] : List Canon).length :=
  (cities_partition [[("city", Value.str "X")]]
    { cities_analyzed := 1
      total_records := 1
      city_data := [(Value.str "X",
        { records := 1
          temperature := { count := 0, avg := none, mn := none, mx := none }
          humidity := { count := 0, avg := none, mn := none, mx := none }
          wind := { count := 0, avg := none, mn := none, mx := none }
          weather_conditions := []
          members := [Value.str "Unknown"] })]
      comparison_ready := true }
    (by decide) (by decide)).1

/-- C6 (amended): on a *non-empty* dataset, an allow-list matching no
record's city yields the explicit `{'error': ...}` result, which is a
different shape from both the `{}` of an empty dataset and any
successful analysis. -/
theorem unmatched_filter_reports_error (td : List Canon) (cs : List String)
    (hne : td ≠ []) (hcs : cs ≠ [])
    (hnm : ∀ r ∈ td, cityFilterPred cs r = false) :
    compare_cities_analysis td (some cs) =
      .ok (.error "No data found for specified cities") ∧
    (CitiesResult.error "No data found for specified cities" ≠ .empty) ∧
    (∀ a, CitiesResult.error "No data found for specified cities" ≠ .analysis a) := by
  refine ⟨?_, ?_, ?_⟩
  · unfold compare_cities_analysis
    rw [if_neg hne]
    have hf : filteredData td (some cs) = [] := by
      unfold filteredData
      dsimp only
      rw [if_neg hcs]
      refine List.filter_eq_nil_iff.mpr (fun r hr => ?_)
      simp [hnm r hr]
    rw [if_pos hf]
  · intro h
    cases h
  · intro a h
    cases h

theorem unmatched_filter_reports_error_witness :
    compare_cities_analysis [[("city", Value.str "Paris")]] (some ["Nowhere"]) =
      .ok (.error "No data found for specified cities") :=
  (unmatched_filter_reports_error [[("city", Value.str "Paris")]] ["Nowhere"]
    (by decide) (by decide) (by decide)).1

/-- C6 counterexample: on the *empty* dataset — where an allow-list of
unseen cities still matches no record — the function returns the plain
`{}` result, not an error marker, and that result is identical to the
one of a successful run over zero records with no allow-list. -/
theorem empty_dataset_filter_counterexample :
    compare_cities_analysis [] (some ["Nowhere"]) = .ok .empty ∧
    compare_cities_analysis [] none = .ok .empty := by
  constructor
  · decide
  · decide

/-! ## Deduplicated member lists -/

theorem foldl_addUnique_nodup :
    ∀ (l acc : List Value), acc.Nodup → (l.foldl addUnique acc).Nodup := by
  intro l
  induction l with
  | nil => intro acc h; exact h
  | cons v t ih =>
    intro acc h
    rw [List.foldl_cons]
    apply ih
    unfold addUnique
    by_cases hm : v ∈ acc
    · simp [hm, h]
    · simp [hm, List.nodup_append, h]

theorem mem_foldl_addUnique :
    ∀ (l acc : List Value) (v : Value),
      v ∈ l.foldl addUnique acc ↔ v ∈ acc ∨ v ∈ l := by
  intro l
  induction l with
  | nil => intro acc v; simp
  | cons w t ih =>
    intro acc v
    rw [List.foldl_cons, ih]
    unfold addUnique
    by_cases hm : w ∈ acc
    · simp only [if_pos hm, List.mem_cons]
      constructor
      · rintro (h | h)
        · exact Or.inl h
        · exact Or.inr (Or.inr h)
      · rintro (h | h | h)
        · exact Or.inl h
        · exact Or.inl (h ▸ hm)
        · exact Or.inr h
    · simp [if_neg hm, or_assoc]

theorem dedupFirst_nodup (l : List Value) : (dedupFirst l).Nodup :=
  foldl_addUnique_nodup l [] (by simp)

theorem mem_dedupFirst {l : List Value} {v : Value} : v ∈ dedupFirst l ↔ v ∈ l := by
  unfold dedupFirst
  rw [mem_foldl_addUnique]
  simp

/-- C9 (amended): the members entry of each city is the *deduplicated*
collection of the `member_name` values of that city group records
(`'Unknown'` for a record lacking the key); it is produced by
`list(set(...))`, whose order is unspecified (modelled here as first
occurrence) — in particular it is not sorted. -/
theorem city_members_dedup (td : List Canon) (res : CitiesOk) (k : Value) (a : CityAnalysis)
    (hok : compare_cities_analysis td none = .ok (.analysis res))
    (hmem : (k, a) ∈ res.city_data) :
    ∃ rs, (k, rs) ∈ groupByCity td ∧ a.members.Nodup ∧
      ∀ v, v ∈ a.members ↔ ∃ r ∈ rs, memberKey r = v := by
  obtain ⟨hmap, _, _⟩ := compare_cities_ok hok
  obtain ⟨g, hg, hent⟩ := mapExcept_mem hmap (k, a) hmem
  obtain ⟨h1, _, h3⟩ := analyzeEntry_ok hent
  refine ⟨g.2, ?_, ?_, ?_⟩
  · have hk : k = g.1 := h1
    rw [hk]
    simpa using hg
  · rw [h3]
    exact dedupFirst_nodup _
  · intro v
    rw [h3, mem_dedupFirst]
    simp [List.mem_map]

theorem city_members_dedup_witness :
    ∃ rs, (Value.str "Y", rs) ∈
        groupByCity [[("city", Value.str "Y"), ("member_name", Value.str "m")]] ∧
      ([Value.str "m"] : List Value).Nodup ∧
      ∀ v, v ∈ ([Value.str "m"] : List Value) ↔ ∃ r ∈ rs, memberKey r = v :=
  city_members_dedup [[("city", Value.str "Y"), ("member_name", Value.str "m")]]
    { cities_analyzed := 1
      total_records := 1
      city_data := [(Value.str "Y",
        { records := 1
          temperature := { count := 0, avg := none, mn := none, mx := none }
          humidity := { count := 0, avg := none, mn := none, mx := none }
          wind := { count := 0, avg := none, mn := none, mx := none }
          weather_conditions := []
          members := [Value.str "m"] })]
      comparison_ready := true }
    (Value.str "Y")
    { records := 1
      temperature := { count := 0, avg := none, mn := none, mx := none }
      humidity := { count := 0, avg := none, mn := none, mx := none }
      wind := { count := 0, avg := none, mn := none, mx := none }
      weather_conditions := []
      members := [Value.str "m"] }
    (by decide) (by decide)

/-- C9 counterexample: members contributed in the order `b`, `a` are
reported as `[b, a]`, which is not the sorted list `[a, b]` — the code
omits the `sorted(...)` it applies to every other categorical set. -/
theorem city_members_unsorted_counterexample :
    compare_cities_analysis
        [[("city", Value.str "X"), ("member_name", Value.str "b")],
         [("city", Value.str "X"), ("member_name", Value.str "a")]] none =
      .ok (.analysis
        { cities_analyzed := 1
          total_records := 2
          city_data := [(Value.str "X",
            { records := 2
              temperature := { count := 0, avg := none, mn := none, mx := none }
              humidity := { count := 0, avg := none, mn := none, mx := none }
              wind := { count := 0, avg := none, mn := none, mx := none }
              weather_conditions := []
              members := [Value.str "b", Value.str "a"] })]
          comparison_ready := true }) ∧
    [Value.str "b", Value.str "a"] ≠ [Value.str "a", Value.str "b"] := by
  constructor
  · decide
  · decide
